import Mathlib

/-!
Shallow embedding of `Yank/states.py` (class `ThermodynamicState` and its
exception type `ThermodynamicsError`).

Modelling conventions:
* OpenMM `Quantity` values (temperatures, pressures) are compared with `==`
  in the source; they are modelled as `Int`.
* A `Force` is modelled as a record carrying its Python class name together
  with the fields the module reads: the barostat's default temperature and
  pressure (the two historical accessor pairs `get/setDefaultTemperature`
  and `get/setTemperature` read and write the same underlying value, so a
  single field models both), the nonbonded method (only meaningful when the
  class name is `"NonbondedForce"`), and an abstract parameter distinguishing
  otherwise identical forces in the serialization.
* A `System` is its ordered force list plus the abstract result of
  `usesPeriodicBoundaryConditions()`.
* Python exceptions are modelled with `Except`; state-mutating methods
  return `Except (ThermodynamicsError × ThermodynamicState) ThermodynamicState`
  where the error component carries the state exactly as mutated up to the
  raise (Python does not roll back on exceptions).
* `XmlSerializer.serialize` is a canonical form: per the design contract,
  two systems hash equal iff their serializations are byte-identical iff
  the systems are structurally equal, so the serialization/hash is modelled
  as the (standardized) system value itself.
-/

deriving instance DecidableEq for Except

namespace Yank

inductive NonbondedMethod where
  | NoCutoff
  | CutoffNonPeriodic
  | CutoffPeriodic
  | Ewald
  | PME
deriving DecidableEq, Repr

structure Force where
  className : String
  pressure : Int
  temperature : Int
  nonbondedMethod : NonbondedMethod
  param : Int
deriving DecidableEq, Repr

structure System where
  forces : List Force
  usesPeriodicBoundaryConditions : Bool
deriving DecidableEq, Repr

/-- Model of `openmm.MonteCarloBarostat(pressure, temperature)`. The nonbonded-method
field is meaningless for a barostat; it is fixed arbitrarily. -/
def MonteCarloBarostat (pressure temperature : Int) : Force :=
  { className := "MonteCarloBarostat", pressure := pressure,
    temperature := temperature, nonbondedMethod := NonbondedMethod.PME,
    param := 0 }

/-- Python's substring test `needle in hay` on lists of characters. -/
def listContainsSublist (needle : List Char) : List Char → Bool
  | [] => needle.isEmpty
  | c :: rest => needle.isPrefixOf (c :: rest) || listContainsSublist needle rest

/-- Python's substring test `needle in hay` on strings. -/
def strContainsSubstr (hay needle : String) : Bool :=
  listContainsSublist needle.toList hay.toList

/-- Discovery test `'Barostat' in force.__class__.__name__`. -/
def forceIsBarostatLike (force : Force) : Bool :=
  strContainsSubstr force.className "Barostat"

/-- The error codes of `ThermodynamicsError` (integers 0–4 in the source). -/
inductive ErrorCode where
  | MULTIPLE_BAROSTATS
  | UNSUPPORTED_BAROSTAT
  | INCONSISTENT_BAROSTAT
  | BAROSTATED_NONPERIODIC
  | INCONSISTENT_INTEGRATOR
deriving DecidableEq, Repr

/-- Message table `ThermodynamicsError.error_messages[code].format(*args)`. Only the
`UNSUPPORTED_BAROSTAT` message interpolates an argument. -/
def errorMessage : ErrorCode → List String → String
  | ErrorCode.MULTIPLE_BAROSTATS, _ => "System has multiple barostats."
  | ErrorCode.UNSUPPORTED_BAROSTAT, args =>
      "Found unsupported barostat " ++ args.headD "" ++ " in system."
  | ErrorCode.INCONSISTENT_BAROSTAT, _ =>
      "System barostat is inconsistent with thermodynamic state."
  | ErrorCode.BAROSTATED_NONPERIODIC, _ =>
      "Non-periodic systems cannot have a barostat."
  | ErrorCode.INCONSISTENT_INTEGRATOR, _ =>
      "Integrator is coupled to a heat bath at a different temperature."

/-- Constructor `ThermodynamicsError(code, *args)`: carries the code and the formatted
message. -/
structure ThermodynamicsError where
  code : ErrorCode
  message : String
deriving DecidableEq, Repr

def mkError (code : ErrorCode) (args : List String) : ThermodynamicsError :=
  { code := code, message := errorMessage code args }

/-- The attributes of a `ThermodynamicState` object: `_system` (the owned
deep copy), `_temperature`, and `_cached_standard_system_hash`. -/
structure ThermodynamicState where
  system : System
  temperature : Int
  cachedStandardSystemHash : Option System
deriving DecidableEq, Repr

/-- The index comprehension in `_find_barostat_index`:
`[i for i, force in enumerate(system.getForces()) if 'Barostat' in force.__class__.__name__]`,
with `i` starting at the given offset. -/
def barostatIdsFrom (i : Nat) : List Force → List Nat
  | [] => []
  | force :: rest =>
      if forceIsBarostatLike force then i :: barostatIdsFrom (i + 1) rest
      else barostatIdsFrom (i + 1) rest

/-- Method `ThermodynamicState._find_barostat_index`. -/
def findBarostatIndex (system : System) : Except ThermodynamicsError (Option Nat) :=
  let barostat_ids := barostatIdsFrom 0 system.forces
  if barostat_ids.length = 0 then Except.ok none
  else if 1 < barostat_ids.length then
    Except.error (mkError ErrorCode.MULTIPLE_BAROSTATS [])
  else Except.ok (some (barostat_ids.headD 0))

def SUPPORTED_BAROSTATS : List String := ["MonteCarloBarostat"]

/-- Method `ThermodynamicState._find_barostat`, returning the barostat together
with its index. The Python method returns the force object, which callers
mutate in place; the index lets our functional model express that in-place
mutation as an update of the force list at that position. -/
def findBarostatPair (system : System) :
    Except ThermodynamicsError (Option (Nat × Force)) :=
  match findBarostatIndex system with
  | Except.error e => Except.error e
  | Except.ok none => Except.ok none
  | Except.ok (some barostat_id) =>
      match system.forces.get? barostat_id with
      | none => Except.ok none
      | some barostat =>
          if SUPPORTED_BAROSTATS.contains barostat.className then
            Except.ok (some (barostat_id, barostat))
          else
            Except.error (mkError ErrorCode.UNSUPPORTED_BAROSTAT [barostat.className])

/-- Method `ThermodynamicState._find_barostat` (the returned force only). -/
def findBarostat (system : System) : Except ThermodynamicsError (Option Force) :=
  match findBarostatPair system with
  | Except.error e => Except.error e
  | Except.ok none => Except.ok none
  | Except.ok (some (_, barostat)) => Except.ok (some barostat)

/-- Property `ThermodynamicState.pressure` (getter): the barostat's default pressure,
or `None` if there is no barostat. Can raise through `_find_barostat`. -/
def pressureGet (st : ThermodynamicState) : Except ThermodynamicsError (Option Int) :=
  match findBarostat st.system with
  | Except.error e => Except.error e
  | Except.ok none => Except.ok none
  | Except.ok (some barostat) => Except.ok (some barostat.pressure)

/-- Method `ThermodynamicState._is_barostat_consistent`. The Python `and` is lazy:
`self.pressure` (which can raise) is only read when the temperatures agree. -/
def isBarostatConsistent (st : ThermodynamicState) (barostat : Force) :
    Except ThermodynamicsError Bool :=
  if barostat.temperature = st.temperature then
    match pressureGet st with
    | Except.error e => Except.error e
    | Except.ok p => Except.ok (decide (some barostat.pressure = p))
  else Except.ok false

def NONPERIODIC_NONBONDED_METHODS : List NonbondedMethod :=
  [NonbondedMethod.NoCutoff, NonbondedMethod.CutoffNonPeriodic]

/-- Body of the loop in `_check_system_consistency`: the force is a
`NonbondedForce` (`isinstance` check; the class has no subclasses) whose
nonbonded method is in `_NONPERIODIC_NONBONDED_METHODS`. -/
def forceIsNonPeriodicNonbonded (force : Force) : Bool :=
  decide (force.className = "NonbondedForce") &&
  NONPERIODIC_NONBONDED_METHODS.contains force.nonbondedMethod

/-- Method `ThermodynamicState._check_system_consistency`: raise on multiple or
unsupported barostats, on a barostat inconsistent with the state, or on a
barostat accompanied by a `NonbondedForce` with a non-periodic method. -/
def checkSystemConsistency (st : ThermodynamicState) (system : System) :
    Except ThermodynamicsError Unit :=
  match findBarostat system with
  | Except.error e => Except.error e
  | Except.ok none => Except.ok ()
  | Except.ok (some barostat) =>
      match isBarostatConsistent st barostat with
      | Except.error e => Except.error e
      | Except.ok consistent =>
          if !consistent then
            Except.error (mkError ErrorCode.INCONSISTENT_BAROSTAT [])
          else if system.forces.any forceIsNonPeriodicNonbonded then
            Except.error (mkError ErrorCode.BAROSTATED_NONPERIODIC [])
          else Except.ok ()

/-- OpenMM call `system.removeForce(index)`. -/
def System.removeForce (s : System) (index : Nat) : System :=
  { s with forces := s.forces.eraseIdx index }

/-- OpenMM call `system.addForce(force)` (OpenMM appends). -/
def System.addForce (s : System) (force : Force) : System :=
  { s with forces := s.forces ++ [force] }

/-- Update the force stored at a position of the force list; this models a
caller mutating in place the force object returned by `system.getForce(i)`. -/
def modifyForceList (g : Force → Force) : Nat → List Force → List Force
  | _, [] => []
  | 0, force :: rest => g force :: rest
  | n + 1, force :: rest => force :: modifyForceList g n rest

def System.modifyForce (s : System) (index : Nat) (g : Force → Force) : System :=
  { s with forces := modifyForceList g index s.forces }

/-- Result type of the mutating methods: on a raise, the state is carried
exactly as mutated up to the point of the exception. -/
abbrev StepResult := Except (ThermodynamicsError × ThermodynamicState) ThermodynamicState

/-- Property `ThermodynamicState.temperature` (setter): store the value, then, if a
barostat exists, write it into the barostat (`setDefaultTemperature`, with
the pre-7.1 `setTemperature` fallback writing the same underlying value). -/
def temperatureSet (st : ThermodynamicState) (value : Int) : StepResult :=
  let st1 : ThermodynamicState := { st with temperature := value }
  match findBarostatPair st1.system with
  | Except.error e => Except.error (e, st1)
  | Except.ok none => Except.ok st1
  | Except.ok (some (barostat_id, _)) =>
      Except.ok { st1 with
        system := st1.system.modifyForce barostat_id
          (fun f => { f with temperature := value }) }

/-- Property `ThermodynamicState.pressure` (setter): `None` removes the barostat if
present; a value on a non-periodic system raises `BAROSTATED_NONPERIODIC`;
otherwise the barostat is added (`MonteCarloBarostat(value, self._temperature)`)
or its default pressure reconfigured in place. -/
def pressureSet (st : ThermodynamicState) (value : Option Int) : StepResult :=
  match value with
  | none =>
      match findBarostatIndex st.system with
      | Except.error e => Except.error (e, st)
      | Except.ok none => Except.ok st
      | Except.ok (some barostat_id) =>
          Except.ok { st with system := st.system.removeForce barostat_id }
  | some p =>
      if !st.system.usesPeriodicBoundaryConditions then
        Except.error (mkError ErrorCode.BAROSTATED_NONPERIODIC [], st)
      else
        match findBarostatPair st.system with
        | Except.error e => Except.error (e, st)
        | Except.ok none =>
            Except.ok { st with
              system := st.system.addForce (MonteCarloBarostat p st.temperature) }
        | Except.ok (some (barostat_id, _)) =>
            Except.ok { st with
              system := st.system.modifyForce barostat_id
                (fun f => { f with pressure := p }) }

/-- Property `ThermodynamicState.system` (setter): validate the candidate system
first; only on success commit the (deep copy of the) new value and
invalidate the cached standard-system hash. -/
def systemSet (st : ThermodynamicState) (value : System) : StepResult :=
  match checkSystemConsistency st value with
  | Except.error e => Except.error (e, st)
  | Except.ok _ =>
      Except.ok { st with system := value, cachedStandardSystemHash := none }

/-- Constructor `ThermodynamicState.__init__(system, temperature, pressure=None)`:
deep-copy the input system, set `_temperature`, run the temperature setter
(which retargets any existing barostat), run the pressure setter when a
pressure is given, and finally run `_check_internal_consistency`. -/
def init (system : System) (temperature : Int) (pressure : Option Int) : StepResult :=
  let st0 : ThermodynamicState :=
    { cachedStandardSystemHash := none, system := system, temperature := temperature }
  match temperatureSet st0 temperature with
  | Except.error e => Except.error e
  | Except.ok st1 =>
      match (match pressure with
             | none => Except.ok st1
             | some p => pressureSet st1 (some p) : StepResult) with
      | Except.error e => Except.error e
      | Except.ok st2 =>
          match checkSystemConsistency st2 st2.system with
          | Except.error e => Except.error (e, st2)
          | Except.ok _ => Except.ok st2

/-- Method `ThermodynamicState._get_standard_system`: a copy of the system with the
barostat removed (if any). -/
def getStandardSystem (system : System) : Except ThermodynamicsError System :=
  match findBarostatIndex system with
  | Except.error e => Except.error e
  | Except.ok none => Except.ok system
  | Except.ok (some barostat_id) => Except.ok (system.removeForce barostat_id)

/-- The hash of the canonical serialization. By the stated design contract
the serialization is injective on systems, so the hash is modelled as the
standardized system itself. -/
abbrev SystemHash := System

def serializeSystem (system : System) : SystemHash := system

/-- Method `ThermodynamicState._get_standard_system_hash`. -/
def getStandardSystemHash (system : System) : Except ThermodynamicsError SystemHash :=
  match getStandardSystem system with
  | Except.error e => Except.error e
  | Except.ok standard_system => Except.ok (serializeSystem standard_system)

/-- Property `ThermodynamicState._standard_system_hash`: the cached value
when present, else the hash recomputed from the owned system. (The Python
property also writes the recomputed value into the cache; that write is
invisible in the returned value.) -/
def standardSystemHash (st : ThermodynamicState) : Except ThermodynamicsError SystemHash :=
  match st.cachedStandardSystemHash with
  | some h => Except.ok h
  | none => getStandardSystemHash st.system

/-- Method `ThermodynamicState.is_state_compatible`. For a `ThermodynamicState`
argument the `_standard_system_hash` attribute always exists, so the
`AttributeError` fallback (recomputing from the exposed system) is dead
code for this argument type and is not modelled. -/
def is_state_compatible (st other : ThermodynamicState) :
    Except ThermodynamicsError Bool :=
  match standardSystemHash other with
  | Except.error e => Except.error e
  | Except.ok state_system_hash =>
      match standardSystemHash st with
      | Except.error e => Except.error e
      | Except.ok h => Except.ok (decide (h = state_system_hash))

/-- An OpenMM integrator that may expose `getTemperature()`; `none` models
the absence of the attribute (`AttributeError` on access). -/
structure SimpleIntegrator where
  getTemperature : Option Int
deriving DecidableEq, Repr

/-- Either a plain integrator or an `openmm.CompoundIntegrator` holding
sub-integrators and the index of the currently active one. -/
inductive Integrator where
  | simple (integrator : SimpleIntegrator)
  | compound (integrators : List SimpleIntegrator) (currentIntegrator : Nat)
deriving DecidableEq, Repr

/-- The integrator the consistency check actually inspects: for a compound
integrator, `integrator.getIntegrator(integrator.getCurrentIntegrator())`. -/
def Integrator.active : Integrator → SimpleIntegrator
  | Integrator.simple integrator => integrator
  | Integrator.compound integrators current =>
      integrators.getD current { getTemperature := none }

/-- Method `ThermodynamicState._is_integrator_consistent`: vacuously true when the
(active) integrator has no `getTemperature` attribute. -/
def isIntegratorConsistent (st : ThermodynamicState) (integrator : Integrator) : Bool :=
  match integrator.active.getTemperature with
  | some t => decide (t = st.temperature)
  | none => true

/-- Model of `openmm.Context(system, integrator[, platform])`, holding the fresh copy
of the state's system it was built from. -/
structure Context where
  system : System
  integrator : Integrator
  platform : Option String
deriving DecidableEq, Repr

/-- Method `ThermodynamicState.create_context(integrator, platform=None)`. -/
def createContext (st : ThermodynamicState) (integrator : Integrator)
    (platform : Option String) : Except ThermodynamicsError Context :=
  if !isIntegratorConsistent st integrator then
    Except.error (mkError ErrorCode.INCONSISTENT_INTEGRATOR [])
  else
    match platform with
    | none => Except.ok { system := st.system, integrator := integrator, platform := none }
    | some p => Except.ok { system := st.system, integrator := integrator, platform := some p }

/-- A heap of system objects, for the aliasing-sensitive part of the
constructor: references are list positions. -/
abbrev Heap := List System

def emptySystem : System := { forces := [], usesPeriodicBoundaryConditions := false }

/-- Constructor `__init__` viewed through the heap: `self._system = copy.deepcopy(system)`
allocates a fresh cell holding a copy of the caller's system, and every
subsequent mutation of the constructor (the temperature setter's barostat
write, the pressure setter's remove/add/reconfigure) targets only that
owned cell, which `init` computes; the caller's cell is never written. -/
def initOnHeap (h : Heap) (callerRef : Nat) (temperature : Int)
    (pressure : Option Int) : Heap × Except ThermodynamicsError Nat :=
  let callerSystem := h.getD callerRef emptySystem
  match init callerSystem temperature pressure with
  | Except.ok st => (h ++ [st.system], Except.ok h.length)
  | Except.error (e, st) => (h ++ [st.system], Except.error e)

def c3State : ThermodynamicState :=
  { system := { forces := [], usesPeriodicBoundaryConditions := true },
    temperature := 300, cachedStandardSystemHash := none }

def c3BadSystem : System :=
  { forces := [MonteCarloBarostat 1 301], usesPeriodicBoundaryConditions := true }

def c4Empty : System := { forces := [], usesPeriodicBoundaryConditions := true }

def c4Two : System :=
  { forces := [MonteCarloBarostat 1 300, MonteCarloBarostat 2 300],
    usesPeriodicBoundaryConditions := true }

def c4AnisoForce : Force :=
  { className := "MonteCarloAnisotropicBarostat", pressure := 1,
    temperature := 300, nonbondedMethod := NonbondedMethod.PME, param := 0 }

def c4Aniso : System :=
  { forces := [c4AnisoForce], usesPeriodicBoundaryConditions := true }

def c7State : ThermodynamicState :=
  { system := { forces := [{ className := "NonbondedForce", pressure := 0,
                             temperature := 0,
                             nonbondedMethod := NonbondedMethod.NoCutoff,
                             param := 0 }],
                usesPeriodicBoundaryConditions := false },
    temperature := 300, cachedStandardSystemHash := none }

def c8Heap : Heap :=
  [{ forces := [MonteCarloBarostat 1 300], usesPeriodicBoundaryConditions := true }]

def c1System : System :=
  { forces := [MonteCarloBarostat 1 300], usesPeriodicBoundaryConditions := true }

def c5State : ThermodynamicState :=
  { system := { forces := [MonteCarloBarostat 4 300], usesPeriodicBoundaryConditions := true },
    temperature := 300, cachedStandardSystemHash := none }

/-- The invariant of a `ThermodynamicState`: the owned system holds at most
one barostat-like force; that force (if any) is of the supported kind, its
temperature equals the state's, and the pressure getter reports exactly its
pressure; and the pressure getter reports `None` exactly when the system
holds no barostat. -/
def StateConsistent (st : ThermodynamicState) : Prop :=
  (st.system.forces.filter forceIsBarostatLike).length ≤ 1 ∧
  (∀ f ∈ st.system.forces.filter forceIsBarostatLike,
      f.className ∈ SUPPORTED_BAROSTATS ∧ f.temperature = st.temperature ∧
      pressureGet st = Except.ok (some f.pressure)) ∧
  (pressureGet st = Except.ok none ↔
    st.system.forces.filter forceIsBarostatLike = [])

def c2System : System :=
  { forces := [MonteCarloBarostat 2 350], usesPeriodicBoundaryConditions := true }

/-- The cached `_cached_standard_system_hash`, when set, is the hash of the
owned system (it is only ever filled by `_standard_system_hash` itself). -/
def CacheOk (st : ThermodynamicState) : Prop :=
  ∀ hsh, st.cachedStandardSystemHash = some hsh →
    getStandardSystemHash st.system = Except.ok hsh

def c6Other : Force :=
  { className := "HarmonicBondForce", pressure := 0, temperature := 0,
    nonbondedMethod := NonbondedMethod.PME, param := 7 }

def c6A : ThermodynamicState :=
  { system := { forces := [MonteCarloBarostat 1 300, c6Other],
                usesPeriodicBoundaryConditions := true },
    temperature := 300, cachedStandardSystemHash := none }

def c6B : ThermodynamicState :=
  { system := { forces := [c6Other], usesPeriodicBoundaryConditions := true },
    temperature := 320,
    cachedStandardSystemHash :=
      some { forces := [c6Other], usesPeriodicBoundaryConditions := true } }

def c10State : ThermodynamicState :=
  { system := { forces := [MonteCarloBarostat 1 300, c6Other],
                usesPeriodicBoundaryConditions := true },
    temperature := 300,
    cachedStandardSystemHash :=
      some { forces := [c6Other], usesPeriodicBoundaryConditions := true } }

def c10After : ThermodynamicState :=
  { system := { forces := [MonteCarloBarostat 1 310, c6Other],
                usesPeriodicBoundaryConditions := true },
    temperature := 310,
    cachedStandardSystemHash :=
      some { forces := [c6Other], usesPeriodicBoundaryConditions := true } }

/-! ### Lemmas about barostat discovery -/

theorem isPrefixOf_append_self (l t : List Char) : l.isPrefixOf (l ++ t) = true := by
  induction l with
  | nil => simp [List.isPrefixOf]
  | cons c rest ih => simp [List.isPrefixOf, ih]

theorem listContainsSublist_nil_needle (h : List Char) :
    listContainsSublist [] h = true := by
  cases h with
  | nil => rfl
  | cons c rest => simp [listContainsSublist]

theorem listContainsSublist_of_middle (needle : List Char) :
    ∀ pre suf, listContainsSublist needle (pre ++ needle ++ suf) = true := by
  intro pre
  induction pre with
  | nil =>
      intro suf
      cases needle with
      | nil => exact listContainsSublist_nil_needle ([] ++ [] ++ suf)
      | cons c rest =>
          simp [listContainsSublist, List.isPrefixOf, isPrefixOf_append_self]
  | cons c pre ih =>
      intro suf
      have h2 := ih suf
      simp only [List.append_assoc] at h2
      simp [listContainsSublist, h2]

theorem strContainsSubstr_of_middle (pre needle suf : String) :
    strContainsSubstr (pre ++ needle ++ suf) needle = true := by
  simp only [strContainsSubstr, String.toList, String.data_append]
  exact listContainsSublist_of_middle needle.data pre.data suf.data

theorem barostatIdsFrom_cons_pos (i : Nat) (f : Force) (rest : List Force)
    (h : forceIsBarostatLike f = true) :
    barostatIdsFrom i (f :: rest) = i :: barostatIdsFrom (i + 1) rest := by
  simp [barostatIdsFrom, h]

theorem barostatIdsFrom_cons_neg (i : Nat) (f : Force) (rest : List Force)
    (h : forceIsBarostatLike f = false) :
    barostatIdsFrom i (f :: rest) = barostatIdsFrom (i + 1) rest := by
  simp [barostatIdsFrom, h]

theorem barostatIdsFrom_succ (l : List Force) :
    ∀ i, barostatIdsFrom (i + 1) l = (barostatIdsFrom i l).map (fun j => j + 1) := by
  induction l with
  | nil => intro i; rfl
  | cons f rest ih =>
      intro i
      cases h : forceIsBarostatLike f <;>
        simp [barostatIdsFrom, h, ih (i + 1), ih i]

theorem barostatIdsFrom_length (l : List Force) :
    ∀ i, (barostatIdsFrom i l).length = (l.filter forceIsBarostatLike).length := by
  induction l with
  | nil => intro i; rfl
  | cons f rest ih =>
      intro i
      cases h : forceIsBarostatLike f <;> simp [barostatIdsFrom, List.filter_cons, h, ih]

theorem barostatIdsFrom_nil_iff (l : List Force) :
    barostatIdsFrom 0 l = [] ↔ l.filter forceIsBarostatLike = [] := by
  constructor <;> intro h
  · have hlen := barostatIdsFrom_length l 0
    rw [h] at hlen
    exact List.length_eq_zero.mp hlen.symm
  · have hlen := barostatIdsFrom_length l 0
    rw [h] at hlen
    exact List.length_eq_zero.mp hlen

theorem barostatIdsFrom_singleton (l : List Force) (j : Nat)
    (h : barostatIdsFrom 0 l = [j]) :
    ∃ b, l.get? j = some b ∧ forceIsBarostatLike b = true ∧
      l.filter forceIsBarostatLike = [b] ∧
      l.eraseIdx j = l.filter (fun f => !forceIsBarostatLike f) := by
  induction l generalizing j with
  | nil => simp [barostatIdsFrom] at h
  | cons f rest ih =>
      cases hB : forceIsBarostatLike f with
      | true =>
          simp only [barostatIdsFrom, hB, if_true, List.cons.injEq] at h
          obtain ⟨hj, htail⟩ := h
          rw [barostatIdsFrom_succ] at htail
          have hrest : barostatIdsFrom 0 rest = [] := List.map_eq_nil.mp htail
          have hfil : rest.filter forceIsBarostatLike = [] :=
            (barostatIdsFrom_nil_iff rest).mp hrest
          have hall : ∀ x ∈ rest, ¬forceIsBarostatLike x = true :=
            List.filter_eq_nil.mp hfil
          refine ⟨f, ?_, hB, ?_, ?_⟩
          · rw [← hj]; rfl
          · simp [List.filter_cons, hB, hfil]
          · rw [← hj]
            have : rest.filter (fun f => !forceIsBarostatLike f) = rest := by
              rw [List.filter_eq_self]
              intro a ha
              simp [Bool.eq_false_iff.mpr (hall a ha)]
            simp [List.filter_cons, hB, this, List.eraseIdx]
      | false =>
          rw [barostatIdsFrom_cons_neg 0 f rest hB, barostatIdsFrom_succ] at h
          cases hids : barostatIdsFrom 0 rest with
          | nil => rw [hids] at h; simp at h
          | cons a t =>
              cases t with
              | nil =>
                  rw [hids] at h
                  simp only [List.map_cons, List.map_nil, List.cons.injEq, and_true] at h
                  obtain ⟨b, hget, hBb, hfil, herase⟩ := ih a hids
                  subst h
                  refine ⟨b, by simpa using hget, hBb, ?_, ?_⟩
                  · simp [List.filter_cons, hB, hfil]
                  · simp [List.eraseIdx, herase, List.filter_cons, hB]
              | cons c t' => rw [hids] at h; simp at h

theorem filter_singleton_ids (l : List Force) (b : Force)
    (h : l.filter forceIsBarostatLike = [b]) :
    ∃ j, barostatIdsFrom 0 l = [j] ∧ l.get? j = some b := by
  induction l generalizing b with
  | nil => simp at h
  | cons f rest ih =>
      cases hB : forceIsBarostatLike f with
      | true =>
          rw [List.filter_cons_of_pos hB] at h
          simp only [List.cons.injEq] at h
          obtain ⟨hfb, hfil⟩ := h
          have hids : barostatIdsFrom 0 rest = [] := (barostatIdsFrom_nil_iff rest).mpr hfil
          refine ⟨0, ?_, by rw [hfb]; rfl⟩
          simp [barostatIdsFrom, hB, barostatIdsFrom_succ, hids]
      | false =>
          rw [List.filter_cons_of_neg (by simp [hB])] at h
          obtain ⟨j, hids, hget⟩ := ih b h
          refine ⟨j + 1, ?_, by simpa using hget⟩
          simp [barostatIdsFrom, hB, barostatIdsFrom_succ, hids]

theorem findBarostatIndex_spec (s : System) :
    findBarostatIndex s =
      match barostatIdsFrom 0 s.forces with
      | [] => Except.ok none
      | [j] => Except.ok (some j)
      | _ :: _ :: _ => Except.error (mkError ErrorCode.MULTIPLE_BAROSTATS []) := by
  unfold findBarostatIndex
  cases h : barostatIdsFrom 0 s.forces with
  | nil => simp
  | cons a t => cases t <;> simp

theorem findBarostatPair_none_iff (s : System) :
    findBarostatPair s = Except.ok none ↔
      s.forces.filter forceIsBarostatLike = [] := by
  constructor
  · intro h
    unfold findBarostatPair at h
    rw [findBarostatIndex_spec] at h
    cases hids : barostatIdsFrom 0 s.forces with
    | nil => exact (barostatIdsFrom_nil_iff _).mp hids
    | cons a t =>
        cases t with
        | nil =>
            rw [hids] at h
            obtain ⟨b, hget, -, -, -⟩ := barostatIdsFrom_singleton _ _ hids
            simp only [hget] at h
            by_cases hsup : b.className ∈ SUPPORTED_BAROSTATS <;>
              simp [hsup] at h
        | cons c t' => rw [hids] at h; simp at h
  · intro h
    have hids : barostatIdsFrom 0 s.forces = [] := (barostatIdsFrom_nil_iff _).mpr h
    unfold findBarostatPair
    rw [findBarostatIndex_spec, hids]

theorem contains_supported_iff (c : String) :
    SUPPORTED_BAROSTATS.contains c = true ↔ c = "MonteCarloBarostat" := by
  simp [SUPPORTED_BAROSTATS]

theorem findBarostatPair_some (s : System) (j : Nat) (b : Force)
    (h : findBarostatPair s = Except.ok (some (j, b))) :
    barostatIdsFrom 0 s.forces = [j] ∧ s.forces.get? j = some b ∧
      b.className = "MonteCarloBarostat" ∧
      s.forces.filter forceIsBarostatLike = [b] ∧
      s.forces.eraseIdx j = s.forces.filter (fun f => !forceIsBarostatLike f) := by
  unfold findBarostatPair at h
  rw [findBarostatIndex_spec] at h
  cases hids : barostatIdsFrom 0 s.forces with
  | nil => rw [hids] at h; simp at h
  | cons a t =>
      cases t with
      | nil =>
          rw [hids] at h
          obtain ⟨b0, hget, hBb, hfil, herase⟩ := barostatIdsFrom_singleton _ _ hids
          simp only [hget] at h
          by_cases hsup : SUPPORTED_BAROSTATS.contains b0.className = true
          · rw [if_pos hsup] at h
            simp only [Except.ok.injEq, Option.some.injEq, Prod.mk.injEq] at h
            obtain ⟨hja, hbb⟩ := h
            subst hja
            subst hbb
            simp only [SUPPORTED_BAROSTATS] at hsup
            simp only [List.contains_cons, List.contains_nil, Bool.or_false,
              beq_iff_eq] at hsup
            exact ⟨rfl, hget, hsup, hfil, herase⟩
          · rw [if_neg hsup] at h
            simp at h
      | cons c t' => rw [hids] at h; simp at h

theorem findBarostatPair_of_filter_singleton (s : System) (b : Force)
    (hfil : s.forces.filter forceIsBarostatLike = [b])
    (hsup : b.className = "MonteCarloBarostat") :
    ∃ j, findBarostatPair s = Except.ok (some (j, b)) ∧
      barostatIdsFrom 0 s.forces = [j] ∧ s.forces.get? j = some b := by
  obtain ⟨j, hids, hget⟩ := filter_singleton_ids s.forces b hfil
  refine ⟨j, ?_, hids, hget⟩
  have hget2 : s.forces[j]? = some b := by simpa using hget
  unfold findBarostatPair
  rw [findBarostatIndex_spec, hids]
  simp [hget2, SUPPORTED_BAROSTATS, hsup]

theorem findBarostatIndex_multiple (s : System)
    (h : 2 ≤ (s.forces.filter forceIsBarostatLike).length) :
    findBarostatIndex s = Except.error (mkError ErrorCode.MULTIPLE_BAROSTATS []) := by
  rw [findBarostatIndex_spec]
  have hlen := barostatIdsFrom_length s.forces 0
  cases hids : barostatIdsFrom 0 s.forces with
  | nil => rw [hids] at hlen; simp at hlen; omega
  | cons a t => cases t with
      | nil => rw [hids] at hlen; simp at hlen; omega
      | cons c t' => rfl

theorem findBarostat_eq_pair (s : System) :
    findBarostat s = (findBarostatPair s).map (Option.map Prod.snd) := by
  unfold findBarostat
  cases h : findBarostatPair s with
  | error e => rfl
  | ok o => cases o with
      | none => rfl
      | some p => rfl

theorem findBarostat_unsupported (s : System) (b : Force)
    (hfil : s.forces.filter forceIsBarostatLike = [b])
    (hsup : ¬b.className = "MonteCarloBarostat") :
    findBarostat s =
      Except.error (mkError ErrorCode.UNSUPPORTED_BAROSTAT [b.className]) := by
  obtain ⟨j, hids, hget⟩ := filter_singleton_ids s.forces b hfil
  have hget2 : s.forces[j]? = some b := by simpa using hget
  unfold findBarostat findBarostatPair
  rw [findBarostatIndex_spec, hids]
  simp [hget2, SUPPORTED_BAROSTATS, hsup]

/-! ### Lemmas about in-place force updates, append and removal -/

theorem modifyForceList_ids (g : Force → Force)
    (hg : ∀ f, forceIsBarostatLike (g f) = forceIsBarostatLike f) :
    ∀ l : List Force, ∀ j i, barostatIdsFrom i (modifyForceList g j l) = barostatIdsFrom i l := by
  intro l
  induction l with
  | nil => intro j i; cases j <;> rfl
  | cons f rest ih =>
      intro j i
      cases j with
      | zero =>
          show barostatIdsFrom i (g f :: rest) = barostatIdsFrom i (f :: rest)
          cases h : forceIsBarostatLike f <;>
            simp [barostatIdsFrom, hg f, h]
      | succ j =>
          show barostatIdsFrom i (f :: modifyForceList g j rest) = barostatIdsFrom i (f :: rest)
          cases h : forceIsBarostatLike f <;> simp [barostatIdsFrom, h, ih j (i + 1)]

theorem modifyForceList_get_self (g : Force → Force) :
    ∀ (l : List Force) (j : Nat), (modifyForceList g j l).get? j = (l.get? j).map g := by
  intro l
  induction l with
  | nil => intro j; cases j <;> rfl
  | cons f rest ih =>
      intro j
      cases j with
      | zero => rfl
      | succ j => simpa [modifyForceList] using ih j

theorem modifyForceList_eraseIdx_self (g : Force → Force) :
    ∀ (l : List Force) (j : Nat), (modifyForceList g j l).eraseIdx j = l.eraseIdx j := by
  intro l
  induction l with
  | nil => intro j; cases j <;> rfl
  | cons f rest ih =>
      intro j
      cases j with
      | zero => rfl
      | succ j => simpa [modifyForceList, List.eraseIdx] using ih j

theorem modifyForceList_any (g : Force → Force) (p : Force → Bool)
    (hp : ∀ f, p (g f) = p f) :
    ∀ (l : List Force) (j : Nat), (modifyForceList g j l).any p = l.any p := by
  intro l
  induction l with
  | nil => intro j; cases j <;> rfl
  | cons f rest ih =>
      intro j
      cases j with
      | zero => simp [modifyForceList, List.any_cons, hp f]
      | succ j => simp [modifyForceList, List.any_cons, ih j]

theorem barostatIdsFrom_append_single (x : Force) :
    ∀ (l : List Force) (i : Nat),
      barostatIdsFrom i (l ++ [x]) =
        barostatIdsFrom i l ++
          (if forceIsBarostatLike x then [i + l.length] else []) := by
  intro l
  induction l with
  | nil =>
      intro i
      cases h : forceIsBarostatLike x <;> simp [barostatIdsFrom, h]
  | cons f rest ih =>
      intro i
      cases h : forceIsBarostatLike f <;>
        cases hx : forceIsBarostatLike x <;>
          simp [barostatIdsFrom, h, hx, ih (i + 1)] <;> omega

theorem eraseIdx_append_length (x : Force) :
    ∀ l : List Force, (l ++ [x]).eraseIdx l.length = l := by
  intro l
  induction l with
  | nil => rfl
  | cons f rest ih => simp [List.eraseIdx, ih]

/-! ### The standardized system -/

theorem filter_not_isB_eq_self (l : List Force)
    (h : l.filter forceIsBarostatLike = []) :
    l.filter (fun f => !forceIsBarostatLike f) = l := by
  rw [List.filter_eq_self]
  intro a ha
  have := List.filter_eq_nil.mp h a ha
  simp [Bool.eq_false_iff.mpr this]

theorem filter_isB_filter_not (l : List Force) :
    (l.filter (fun f => !forceIsBarostatLike f)).filter forceIsBarostatLike = [] := by
  rw [List.filter_eq_nil]
  intro f hf
  have h2 := (List.mem_filter.mp hf).2
  simp only [Bool.not_eq_true'] at h2
  simp [h2]

/-- For a system with at most one barostat-like force, `_get_standard_system`
succeeds and keeps exactly the non-barostat forces, in order. -/
theorem getStandardSystem_spec (s : System)
    (h : (s.forces.filter forceIsBarostatLike).length ≤ 1) :
    getStandardSystem s = Except.ok
      { forces := s.forces.filter (fun f => !forceIsBarostatLike f),
        usesPeriodicBoundaryConditions := s.usesPeriodicBoundaryConditions } := by
  unfold getStandardSystem
  rw [findBarostatIndex_spec]
  cases hids : barostatIdsFrom 0 s.forces with
  | nil =>
      have hfil : s.forces.filter forceIsBarostatLike = [] :=
        (barostatIdsFrom_nil_iff _).mp hids
      simp [filter_not_isB_eq_self s.forces hfil]
  | cons a t =>
      cases t with
      | nil =>
          obtain ⟨b, -, -, -, herase⟩ := barostatIdsFrom_singleton _ _ hids
          simp [System.removeForce, herase]
      | cons c t' =>
          have hlen := barostatIdsFrom_length s.forces 0
          rw [hids] at hlen
          simp at hlen
          omega

/-! ### Derived facts about the getters and the consistency check -/

theorem findBarostat_of_filter_nil (s : System)
    (h : s.forces.filter forceIsBarostatLike = []) :
    findBarostat s = Except.ok none := by
  rw [findBarostat_eq_pair, (findBarostatPair_none_iff s).mpr h]
  rfl

theorem findBarostat_of_filter_singleton (s : System) (b : Force)
    (hfil : s.forces.filter forceIsBarostatLike = [b])
    (hsup : b.className = "MonteCarloBarostat") :
    findBarostat s = Except.ok (some b) := by
  obtain ⟨j, hpair, -, -⟩ := findBarostatPair_of_filter_singleton s b hfil hsup
  rw [findBarostat_eq_pair, hpair]
  rfl

theorem pressureGet_of_filter_nil (st : ThermodynamicState)
    (h : st.system.forces.filter forceIsBarostatLike = []) :
    pressureGet st = Except.ok none := by
  unfold pressureGet
  rw [findBarostat_of_filter_nil st.system h]

theorem pressureGet_of_filter_singleton (st : ThermodynamicState) (b : Force)
    (hfil : st.system.forces.filter forceIsBarostatLike = [b])
    (hsup : b.className = "MonteCarloBarostat") :
    pressureGet st = Except.ok (some b.pressure) := by
  unfold pressureGet
  rw [findBarostat_of_filter_singleton st.system b hfil hsup]

theorem checkSystemConsistency_ok_nil (st : ThermodynamicState) (s : System)
    (h : s.forces.filter forceIsBarostatLike = []) :
    checkSystemConsistency st s = Except.ok () := by
  unfold checkSystemConsistency
  rw [findBarostat_of_filter_nil s h]

theorem checkSystemConsistency_ok_singleton (st : ThermodynamicState) (b : Force)
    (hfil : st.system.forces.filter forceIsBarostatLike = [b])
    (hsup : b.className = "MonteCarloBarostat")
    (htemp : b.temperature = st.temperature)
    (hnb : st.system.forces.any forceIsNonPeriodicNonbonded = false) :
    checkSystemConsistency st st.system = Except.ok () := by
  unfold checkSystemConsistency isBarostatConsistent
  rw [findBarostat_of_filter_singleton st.system b hfil hsup]
  simp [htemp, pressureGet_of_filter_singleton st b hfil hsup, hnb]

/-! ### Claim C3 -/

/-- C3: whenever assignment to the `system` property raises a
`ThermodynamicsError`, the state carried out of the raise is exactly the
state before the assignment (owned system and cached standard-system hash
included): validation runs before the new value is committed. -/
theorem C3_system_setter_validates_before_commit
    (st : ThermodynamicState) (value : System) (e : ThermodynamicsError)
    (st' : ThermodynamicState)
    (h : systemSet st value = Except.error (e, st')) :
    st' = st := by
  unfold systemSet at h
  cases hc : checkSystemConsistency st value with
  | error e2 =>
      rw [hc] at h
      simp only [Except.error.injEq, Prod.mk.injEq] at h
      exact h.2.symm
  | ok u => rw [hc] at h; simp at h

theorem C3_witness : c3State = c3State :=
  C3_system_setter_validates_before_commit c3State c3BadSystem
    (mkError ErrorCode.INCONSISTENT_BAROSTAT []) c3State (by decide)

/-! ### Claim C4 -/

/-- C4: barostat discovery. With zero barostat-like forces it reports no
barostat and no error; with two or more it raises `MULTIPLE_BAROSTATS`;
with exactly one whose concrete class is not `MonteCarloBarostat` it raises
`UNSUPPORTED_BAROSTAT` with the offending class name in the message. -/
theorem C4_barostat_discovery (s : System) :
    (s.forces.filter forceIsBarostatLike = [] →
      findBarostat s = Except.ok none) ∧
    (2 ≤ (s.forces.filter forceIsBarostatLike).length →
      findBarostat s = Except.error (mkError ErrorCode.MULTIPLE_BAROSTATS []) ∧
      (mkError ErrorCode.MULTIPLE_BAROSTATS []).code = ErrorCode.MULTIPLE_BAROSTATS) ∧
    (∀ b, s.forces.filter forceIsBarostatLike = [b] →
      ¬b.className = "MonteCarloBarostat" →
      ∃ e, findBarostat s = Except.error e ∧
        e.code = ErrorCode.UNSUPPORTED_BAROSTAT ∧
        strContainsSubstr e.message b.className = true) := by
  refine ⟨findBarostat_of_filter_nil s, ?_, ?_⟩
  · intro h
    refine ⟨?_, rfl⟩
    rw [findBarostat_eq_pair]
    unfold findBarostatPair
    rw [findBarostatIndex_multiple s h]
    rfl
  · intro b hfil hsup
    refine ⟨mkError ErrorCode.UNSUPPORTED_BAROSTAT [b.className],
      findBarostat_unsupported s b hfil hsup, rfl, ?_⟩
    show strContainsSubstr
      ("Found unsupported barostat " ++ b.className ++ " in system.") b.className = true
    exact strContainsSubstr_of_middle "Found unsupported barostat " b.className " in system."

theorem C4_witness :
    findBarostat c4Empty = Except.ok none ∧
    findBarostat c4Two = Except.error (mkError ErrorCode.MULTIPLE_BAROSTATS []) ∧
    (∃ e, findBarostat c4Aniso = Except.error e ∧
      e.code = ErrorCode.UNSUPPORTED_BAROSTAT ∧
      strContainsSubstr e.message c4AnisoForce.className = true) :=
  ⟨(C4_barostat_discovery c4Empty).1 (by decide),
   ((C4_barostat_discovery c4Two).2.1 (by decide)).1,
   (C4_barostat_discovery c4Aniso).2.2 c4AnisoForce (by decide) (by decide)⟩

/-! ### Claim C7 -/

/-- C7: on a state whose system is non-periodic, assigning any non-`None`
pressure raises `BAROSTATED_NONPERIODIC` (leaving the state untouched), and
— given the OpenMM guarantee that a system holding a barostat force always
reports periodic boundary conditions (true both before and after OpenMM
7.1) — the pressure getter returns `None`. -/
theorem C7_nonperiodic_pressure (st : ThermodynamicState) :
    (∀ p, st.system.usesPeriodicBoundaryConditions = false →
      pressureSet st (some p) =
        Except.error (mkError ErrorCode.BAROSTATED_NONPERIODIC [], st)) ∧
    (st.system.usesPeriodicBoundaryConditions = false →
     (∀ f ∈ st.system.forces, forceIsBarostatLike f = true →
        st.system.usesPeriodicBoundaryConditions = true) →
     pressureGet st = Except.ok none) := by
  constructor
  · intro p hper
    unfold pressureSet
    rw [hper]
    rfl
  · intro hper hbar
    have hfil : st.system.forces.filter forceIsBarostatLike = [] := by
      rw [List.filter_eq_nil]
      intro f hf hB
      rw [hbar f hf hB] at hper
      simp at hper
    exact pressureGet_of_filter_nil st hfil

theorem C7_witness :
    pressureSet c7State (some 1) =
      Except.error (mkError ErrorCode.BAROSTATED_NONPERIODIC [], c7State) ∧
    pressureGet c7State = Except.ok none :=
  ⟨(C7_nonperiodic_pressure c7State).1 1 (by decide),
   (C7_nonperiodic_pressure c7State).2 (by decide) (by decide)⟩

/-! ### Claim C8 -/

/-- C8: viewed through a heap of system objects, the constructor reads the
caller's system once (for the deep copy) and applies every mutation to the
freshly allocated owned copy, so the caller's cell is unchanged whether
construction succeeds or raises. -/
theorem C8_constructor_never_mutates_caller
    (h : Heap) (r : Nat) (temperature : Int) (pressure : Option Int)
    (hr : r < h.length) :
    (initOnHeap h r temperature pressure).1.get? r = h.get? r := by
  show (match init (h.getD r emptySystem) temperature pressure with
        | Except.ok st => (h ++ [st.system], Except.ok h.length)
        | Except.error (e, st) => (h ++ [st.system], Except.error e)).1.get? r
       = h.get? r
  cases hres : init (h.getD r emptySystem) temperature pressure with
  | ok st => simpa using List.get?_append hr
  | error p =>
      obtain ⟨e, st⟩ := p
      simpa using List.get?_append hr

theorem C8_witness :
    (initOnHeap c8Heap 0 310 (some 2)).1.get? 0 = c8Heap.get? 0 :=
  C8_constructor_never_mutates_caller c8Heap 0 310 (some 2) (by decide)

/-! ### Claim C9 -/

/-- C9: `create_context` raises `INCONSISTENT_INTEGRATOR` exactly when the
integrator — for a compound integrator, its currently active
sub-integrator — exposes a heat-bath temperature different from the
state's; an integrator exposing no temperature is vacuously consistent. -/
theorem C9_create_context_integrator_check
    (st : ThermodynamicState) (integrator : Integrator) (platform : Option String) :
    (∃ e, createContext st integrator platform = Except.error e ∧
       e.code = ErrorCode.INCONSISTENT_INTEGRATOR) ↔
    (∃ t, integrator.active.getTemperature = some t ∧ t ≠ st.temperature) := by
  unfold createContext isIntegratorConsistent
  cases hT : integrator.active.getTemperature with
  | none => cases platform <;> simp [hT]
  | some t =>
      by_cases he : t = st.temperature
      · cases platform <;> simp [hT, he]
      · constructor
        · intro _
          exact ⟨t, rfl, he⟩
        · intro _
          refine ⟨mkError ErrorCode.INCONSISTENT_INTEGRATOR [], ?_, rfl⟩
          simp [hT, he]

/-! ### Unfolding lemmas for the setters and the constructor -/

theorem temperatureSet_mk (s : System) (T0 T : Int) (c : Option System) :
    temperatureSet { system := s, temperature := T0, cachedStandardSystemHash := c } T =
      (match findBarostatPair s with
       | Except.error e =>
           Except.error (e, { system := s, temperature := T, cachedStandardSystemHash := c })
       | Except.ok none =>
           Except.ok { system := s, temperature := T, cachedStandardSystemHash := c }
       | Except.ok (some (j, _)) =>
           Except.ok { system := s.modifyForce j (fun f => { f with temperature := T }),
                       temperature := T, cachedStandardSystemHash := c }) := rfl

theorem init_none_eq (s : System) (T : Int) :
    init s T none =
      (match temperatureSet
          { system := s, temperature := T, cachedStandardSystemHash := none } T with
       | Except.error e => Except.error e
       | Except.ok st1 =>
           match checkSystemConsistency st1 st1.system with
           | Except.error e => Except.error (e, st1)
           | Except.ok _ => Except.ok st1) := rfl

theorem init_some_eq (s : System) (T : Int) (p : Int) :
    init s T (some p) =
      (match temperatureSet
          { system := s, temperature := T, cachedStandardSystemHash := none } T with
       | Except.error e => Except.error e
       | Except.ok st1 =>
           match pressureSet st1 (some p) with
           | Except.error e => Except.error e
           | Except.ok st2 =>
               match checkSystemConsistency st2 st2.system with
               | Except.error e => Except.error (e, st2)
               | Except.ok _ => Except.ok st2) := rfl

/-! ### Claim C1 -/

/-- C1 counterexample: a periodic system with a single supported
`MonteCarloBarostat` at 300 K, constructed with temperature 310 K and no
pressure, does NOT raise `INCONSISTENT_BAROSTAT`: construction succeeds,
with the barostat's temperature overwritten to 310 K. -/
theorem C1_counterexample :
    init c1System 310 none =
      Except.ok { system := { forces := [MonteCarloBarostat 1 310],
                              usesPeriodicBoundaryConditions := true },
                  temperature := 310, cachedStandardSystemHash := none } := by decide

/-- C1 amended: for every periodic system (one on which the constructor's
periodicity scan finds no non-periodic `NonbondedForce`) containing a
single supported `MonteCarloBarostat`, construction with any temperature
and no pressure argument SUCCEEDS: the temperature setter overwrites the
barostat's temperature with the constructor's, after which the consistency
check passes, so no `INCONSISTENT_BAROSTAT` is raised. -/
theorem C1_amended_construction_retargets_barostat
    (s : System) (b : Force) (temperature : Int)
    (hfil : s.forces.filter forceIsBarostatLike = [b])
    (hsup : b.className = "MonteCarloBarostat")
    (hper : s.forces.any forceIsNonPeriodicNonbonded = false) :
    ∃ st, init s temperature none = Except.ok st ∧
      st.temperature = temperature ∧
      st.system.forces.filter forceIsBarostatLike =
        [{ b with temperature := temperature }] := by
  obtain ⟨j, hpair, hids, hget⟩ := findBarostatPair_of_filter_singleton s b hfil hsup
  have hts := temperatureSet_mk s temperature temperature none
  rw [hpair] at hts
  have hgB : ∀ f, forceIsBarostatLike
      ((fun f => { f with temperature := temperature }) f) = forceIsBarostatLike f :=
    fun f => rfl
  have hids2 : barostatIdsFrom 0
      (modifyForceList (fun f => { f with temperature := temperature }) j s.forces) = [j] := by
    rw [modifyForceList_ids _ hgB s.forces j 0, hids]
  have hget2 : (modifyForceList (fun f => { f with temperature := temperature })
      j s.forces).get? j = some { b with temperature := temperature } := by
    rw [modifyForceList_get_self, hget]
    rfl
  obtain ⟨b2, hgetb2, hBb2, hfil2, -⟩ := barostatIdsFrom_singleton _ _ hids2
  rw [hget2] at hgetb2
  have hb2 : b2 = { b with temperature := temperature } := (Option.some.inj hgetb2).symm
  subst hb2
  set st2 : ThermodynamicState :=
    { system := s.modifyForce j (fun f => { f with temperature := temperature }),
      temperature := temperature, cachedStandardSystemHash := none } with hst2
  have hchk : checkSystemConsistency st2 st2.system = Except.ok () := by
    refine checkSystemConsistency_ok_singleton st2 { b with temperature := temperature }
      hfil2 hsup rfl ?_
    show (modifyForceList (fun f => { f with temperature := temperature })
        j s.forces).any forceIsNonPeriodicNonbonded = false
    rw [modifyForceList_any (fun f => { f with temperature := temperature })
      forceIsNonPeriodicNonbonded (fun f => rfl) s.forces j]
    exact hper
  refine ⟨st2, ?_, rfl, hfil2⟩
  rw [init_none_eq, hts]
  show (match checkSystemConsistency st2 st2.system with
        | Except.error e => Except.error (e, st2)
        | Except.ok _ => Except.ok st2) = Except.ok st2
  rw [hchk]

theorem C1_amended_witness :
    ∃ st, init c1System 310 none = Except.ok st ∧
      st.temperature = 310 ∧
      st.system.forces.filter forceIsBarostatLike =
        [{ MonteCarloBarostat 1 300 with temperature := 310 }] :=
  C1_amended_construction_retargets_barostat c1System (MonteCarloBarostat 1 300) 310
    (by decide) (by decide) (by decide)

/-! ### Branch lemmas for the pressure setter -/

theorem MonteCarloBarostat_isBarostatLike (p T : Int) :
    forceIsBarostatLike (MonteCarloBarostat p T) = true := rfl

theorem findBarostatIndex_some_ids (s : System) (j : Nat)
    (h : findBarostatIndex s = Except.ok (some j)) :
    barostatIdsFrom 0 s.forces = [j] := by
  rw [findBarostatIndex_spec] at h
  cases hids : barostatIdsFrom 0 s.forces with
  | nil => rw [hids] at h; simp at h
  | cons a t =>
      cases t with
      | nil =>
          rw [hids] at h
          simp only [Except.ok.injEq, Option.some.injEq] at h
          rw [h]
      | cons c t' => rw [hids] at h; simp at h

theorem pressureSet_none_of_filter_nil (st : ThermodynamicState)
    (h : st.system.forces.filter forceIsBarostatLike = []) :
    pressureSet st none = Except.ok st := by
  unfold pressureSet
  rw [findBarostatIndex_spec, (barostatIdsFrom_nil_iff _).mpr h]

theorem pressureSet_none_of_filter_singleton (st : ThermodynamicState) (b : Force)
    (hfil : st.system.forces.filter forceIsBarostatLike = [b]) :
    ∃ j, barostatIdsFrom 0 st.system.forces = [j] ∧
      pressureSet st none = Except.ok { st with system := st.system.removeForce j } := by
  obtain ⟨j, hids, -⟩ := filter_singleton_ids _ b hfil
  refine ⟨j, hids, ?_⟩
  unfold pressureSet
  rw [findBarostatIndex_spec, hids]

theorem pressureSet_some_add (st : ThermodynamicState) (p : Int)
    (hper : st.system.usesPeriodicBoundaryConditions = true)
    (hfil : st.system.forces.filter forceIsBarostatLike = []) :
    pressureSet st (some p) =
      Except.ok { st with
        system := st.system.addForce (MonteCarloBarostat p st.temperature) } := by
  unfold pressureSet
  rw [hper, (findBarostatPair_none_iff st.system).mpr hfil]
  rfl

theorem pressureSet_some_reconfigure (st : ThermodynamicState) (p : Int) (b : Force)
    (hper : st.system.usesPeriodicBoundaryConditions = true)
    (hfil : st.system.forces.filter forceIsBarostatLike = [b])
    (hsup : b.className = "MonteCarloBarostat") :
    ∃ j, barostatIdsFrom 0 st.system.forces = [j] ∧
      pressureSet st (some p) =
        Except.ok { st with
          system := st.system.modifyForce j (fun f => { f with pressure := p }) } := by
  obtain ⟨j, hpair, hids, -⟩ := findBarostatPair_of_filter_singleton st.system b hfil hsup
  refine ⟨j, hids, ?_⟩
  unfold pressureSet
  rw [hper, hpair]
  rfl

theorem removeForce_forces (s : System) (j : Nat) :
    (s.removeForce j).forces = s.forces.eraseIdx j := rfl

theorem addForce_forces (s : System) (f : Force) :
    (s.addForce f).forces = s.forces ++ [f] := rfl

theorem modifyForce_forces (s : System) (j : Nat) (g : Force → Force) :
    (s.modifyForce j g).forces = modifyForceList g j s.forces := rfl

theorem filter_not_isB_idem (l : List Force) :
    (l.filter (fun f => !forceIsBarostatLike f)).filter (fun f => !forceIsBarostatLike f) =
      l.filter (fun f => !forceIsBarostatLike f) := by
  rw [List.filter_eq_self]
  intro a ha
  exact (List.mem_filter.mp ha).2

/-- After the remove branch of the pressure setter, the owned system has no
barostat-like force left. -/
theorem filter_eraseIdx_of_singleton (l : List Force) (j : Nat)
    (hids : barostatIdsFrom 0 l = [j]) :
    (l.eraseIdx j).filter forceIsBarostatLike = [] := by
  obtain ⟨b, -, -, -, herase⟩ := barostatIdsFrom_singleton l j hids
  rw [herase]
  exact filter_isB_filter_not l

/-- After the add branch of the pressure setter, the appended barostat is
the unique barostat-like force. -/
theorem filter_append_barostat (l : List Force) (x : Force)
    (hfil : l.filter forceIsBarostatLike = [])
    (hx : forceIsBarostatLike x = true) :
    (l ++ [x]).filter forceIsBarostatLike = [x] := by
  rw [List.filter_append, hfil, List.filter_cons_of_pos hx]
  rfl

/-- After modifying the force at the unique barostat index with a
discovery-preserving update, the updated force is the unique barostat-like
force. -/
theorem filter_modify_of_singleton (l : List Force) (j : Nat) (g : Force → Force)
    (hg : ∀ f, forceIsBarostatLike (g f) = forceIsBarostatLike f)
    (b : Force)
    (hids : barostatIdsFrom 0 l = [j]) (hget : l.get? j = some b) :
    (modifyForceList g j l).filter forceIsBarostatLike = [g b] := by
  have hids2 : barostatIdsFrom 0 (modifyForceList g j l) = [j] := by
    rw [modifyForceList_ids g hg l j 0, hids]
  obtain ⟨b2, hget2, -, hfil2, -⟩ := barostatIdsFrom_singleton _ _ hids2
  rw [modifyForceList_get_self, hget] at hget2
  rw [hfil2, Option.some.inj hget2]

/-! ### Claim C5 -/

/-- C5: on a valid periodic state, setting the pressure to `P` and reading
it back returns `P`; setting it to `None` removes the barostat, after which
the getter returns `None`; and a second `None` assignment is a no-op, so
setting `None` twice equals setting it once. -/
theorem C5_pressure_set_get (st : ThermodynamicState)
    (hper : st.system.usesPeriodicBoundaryConditions = true)
    (hval : st.system.forces.filter forceIsBarostatLike = [] ∨
      ∃ b, st.system.forces.filter forceIsBarostatLike = [b] ∧
        b.className = "MonteCarloBarostat") :
    (∀ p : Int, ∃ st', pressureSet st (some p) = Except.ok st' ∧
       pressureGet st' = Except.ok (some p)) ∧
    (∃ st2, pressureSet st none = Except.ok st2 ∧
       pressureGet st2 = Except.ok none ∧
       st2.system.forces.filter forceIsBarostatLike = [] ∧
       pressureSet st2 none = Except.ok st2) := by
  constructor
  · intro p
    rcases hval with hnil | ⟨b, hfil, hsup⟩
    · refine ⟨_, pressureSet_some_add st p hper hnil, ?_⟩
      apply pressureGet_of_filter_singleton _ (MonteCarloBarostat p st.temperature) _ rfl
      show (st.system.forces ++ [MonteCarloBarostat p st.temperature]).filter
        forceIsBarostatLike = [MonteCarloBarostat p st.temperature]
      exact filter_append_barostat st.system.forces _ hnil
        (MonteCarloBarostat_isBarostatLike p st.temperature)
    · obtain ⟨j, hids, hset⟩ := pressureSet_some_reconfigure st p b hper hfil hsup
      obtain ⟨-, hget, -, -, -⟩ := barostatIdsFrom_singleton _ _ hids
      obtain ⟨b0, hget0, -, -, -⟩ := barostatIdsFrom_singleton _ _ hids
      refine ⟨_, hset, ?_⟩
      apply pressureGet_of_filter_singleton _ { b0 with pressure := p } _ ?_
      · show (modifyForceList (fun f => { f with pressure := p }) j st.system.forces).filter
          forceIsBarostatLike = [{ b0 with pressure := p }]
        exact filter_modify_of_singleton st.system.forces j
          (fun f => { f with pressure := p }) (fun f => rfl) b0 hids hget0
      · show b0.className = "MonteCarloBarostat"
        have hmem : b0 ∈ st.system.forces.filter forceIsBarostatLike := by
          obtain ⟨b1, hget1, hB1, hfil1, -⟩ := barostatIdsFrom_singleton _ _ hids
          rw [hget1] at hget0
          rw [hfil1, Option.some.inj hget0]
          exact List.mem_singleton.mpr rfl
        rw [hfil] at hmem
        rw [List.mem_singleton.mp hmem]
        exact hsup
  · rcases hval with hnil | ⟨b, hfil, hsup⟩
    · exact ⟨st, pressureSet_none_of_filter_nil st hnil,
        pressureGet_of_filter_nil st hnil, hnil,
        pressureSet_none_of_filter_nil st hnil⟩
    · obtain ⟨j, hids, hset⟩ := pressureSet_none_of_filter_singleton st b hfil
      have hfil2 : ({ st with system := st.system.removeForce j } :
          ThermodynamicState).system.forces.filter forceIsBarostatLike = [] := by
        show (st.system.forces.eraseIdx j).filter forceIsBarostatLike = []
        exact filter_eraseIdx_of_singleton st.system.forces j hids
      exact ⟨_, hset, pressureGet_of_filter_nil _ hfil2, hfil2,
        pressureSet_none_of_filter_nil _ hfil2⟩

theorem C5_witness :
    (∃ st', pressureSet c5State (some 9) = Except.ok st' ∧
       pressureGet st' = Except.ok (some 9)) ∧
    (∃ st2, pressureSet c5State none = Except.ok st2 ∧
       pressureGet st2 = Except.ok none ∧
       st2.system.forces.filter forceIsBarostatLike = [] ∧
       pressureSet st2 none = Except.ok st2) :=
  ⟨(C5_pressure_set_get c5State (by decide)
      (Or.inr ⟨MonteCarloBarostat 4 300, by decide, by decide⟩)).1 9,
   (C5_pressure_set_get c5State (by decide)
      (Or.inr ⟨MonteCarloBarostat 4 300, by decide, by decide⟩)).2⟩

/-! ### The state invariant (claim C2) -/

theorem stateConsistent_of_filter_nil (st : ThermodynamicState)
    (h : st.system.forces.filter forceIsBarostatLike = []) :
    StateConsistent st := by
  refine ⟨by simp [h], ?_, ?_⟩
  · intro f hf
    rw [h] at hf
    simp at hf
  · rw [h]
    simp [pressureGet_of_filter_nil st h]

theorem stateConsistent_of_filter_singleton (st : ThermodynamicState) (b : Force)
    (hfil : st.system.forces.filter forceIsBarostatLike = [b])
    (hsup : b.className = "MonteCarloBarostat")
    (htemp : b.temperature = st.temperature) :
    StateConsistent st := by
  have hpg := pressureGet_of_filter_singleton st b hfil hsup
  refine ⟨by simp [hfil], ?_, ?_⟩
  · intro f hf
    rw [hfil] at hf
    rw [List.mem_singleton.mp hf]
    exact ⟨by simp [SUPPORTED_BAROSTATS, hsup], htemp, hpg⟩
  · rw [hfil, hpg]
    simp

theorem findBarostat_none_iff (s : System) :
    findBarostat s = Except.ok none ↔
      s.forces.filter forceIsBarostatLike = [] := by
  rw [findBarostat_eq_pair]
  constructor
  · intro h
    cases hp : findBarostatPair s with
    | error e => rw [hp] at h; simp [Except.map] at h
    | ok o =>
        cases o with
        | none => exact (findBarostatPair_none_iff s).mp hp
        | some pr => rw [hp] at h; simp [Except.map] at h
  · intro h
    rw [(findBarostatPair_none_iff s).mpr h]
    rfl

theorem findBarostat_some (s : System) (b : Force)
    (h : findBarostat s = Except.ok (some b)) :
    ∃ j, findBarostatPair s = Except.ok (some (j, b)) := by
  rw [findBarostat_eq_pair] at h
  cases hp : findBarostatPair s with
  | error e => rw [hp] at h; simp [Except.map] at h
  | ok o =>
      cases o with
      | none => rw [hp] at h; simp [Except.map] at h
      | some pr =>
          obtain ⟨j, b0⟩ := pr
          rw [hp] at h
          simp only [Except.map, Option.map, Except.ok.injEq, Option.some.injEq] at h
          exact ⟨j, by rw [h]⟩

theorem isBarostatConsistent_true_temp (st : ThermodynamicState) (b : Force)
    (h : isBarostatConsistent st b = Except.ok true) :
    b.temperature = st.temperature := by
  unfold isBarostatConsistent at h
  by_cases ht : b.temperature = st.temperature
  · exact ht
  · rw [if_neg ht] at h
    simp at h

/-- A passing `_check_system_consistency` run means: no barostat at all, or
a single supported barostat matching the state's temperature. -/
theorem check_ok_inv (st : ThermodynamicState) (s : System)
    (h : checkSystemConsistency st s = Except.ok ()) :
    s.forces.filter forceIsBarostatLike = [] ∨
    ∃ b, s.forces.filter forceIsBarostatLike = [b] ∧
      b.className = "MonteCarloBarostat" ∧ b.temperature = st.temperature := by
  unfold checkSystemConsistency at h
  cases hfb : findBarostat s with
  | error e => rw [hfb] at h; simp at h
  | ok o =>
      cases o with
      | none => exact Or.inl ((findBarostat_none_iff s).mp hfb)
      | some b =>
          simp only [hfb] at h
          cases hic : isBarostatConsistent st b with
          | error e => simp only [hic] at h; simp at h
          | ok consistent =>
              simp only [hic] at h
              cases consistent with
              | false => simp at h
              | true =>
                  obtain ⟨j, hpair⟩ := findBarostat_some s b hfb
                  obtain ⟨-, -, hsup, hfil, -⟩ := findBarostatPair_some s j b hpair
                  exact Or.inr ⟨b, hfil, hsup, isBarostatConsistent_true_temp st b hic⟩

theorem stateConsistent_of_check_ok (st : ThermodynamicState)
    (h : checkSystemConsistency st st.system = Except.ok ()) :
    StateConsistent st := by
  rcases check_ok_inv st st.system h with hnil | ⟨b, hfil, hsup, htemp⟩
  · exact stateConsistent_of_filter_nil st hnil
  · exact stateConsistent_of_filter_singleton st b hfil hsup htemp

theorem pressureSet_none_mk (s : System) (T : Int) (c : Option System) :
    pressureSet { system := s, temperature := T, cachedStandardSystemHash := c } none =
      (match findBarostatIndex s with
       | Except.error e =>
           Except.error (e, { system := s, temperature := T, cachedStandardSystemHash := c })
       | Except.ok none =>
           Except.ok { system := s, temperature := T, cachedStandardSystemHash := c }
       | Except.ok (some j) =>
           Except.ok { system := s.removeForce j,
                       temperature := T, cachedStandardSystemHash := c }) := rfl

theorem pressureSet_some_mk (s : System) (T : Int) (c : Option System) (p : Int) :
    pressureSet { system := s, temperature := T, cachedStandardSystemHash := c } (some p) =
      (if !s.usesPeriodicBoundaryConditions then
         Except.error (mkError ErrorCode.BAROSTATED_NONPERIODIC [],
           { system := s, temperature := T, cachedStandardSystemHash := c })
       else
         match findBarostatPair s with
         | Except.error e =>
             Except.error (e, { system := s, temperature := T, cachedStandardSystemHash := c })
         | Except.ok none =>
             Except.ok { system := s.addForce (MonteCarloBarostat p T),
                         temperature := T, cachedStandardSystemHash := c }
         | Except.ok (some (j, _)) =>
             Except.ok { system := s.modifyForce j (fun f => { f with pressure := p }),
                         temperature := T, cachedStandardSystemHash := c }) := rfl

theorem systemSet_mk (s : System) (T : Int) (c : Option System) (value : System) :
    systemSet { system := s, temperature := T, cachedStandardSystemHash := c } value =
      (match checkSystemConsistency
          { system := s, temperature := T, cachedStandardSystemHash := c } value with
       | Except.error e =>
           Except.error (e, { system := s, temperature := T, cachedStandardSystemHash := c })
       | Except.ok _ =>
           Except.ok { system := value,
                       temperature := T, cachedStandardSystemHash := none }) := rfl

theorem init_ok_check (s : System) (T : Int) (P : Option Int) (st : ThermodynamicState)
    (h : init s T P = Except.ok st) :
    checkSystemConsistency st st.system = Except.ok () := by
  cases P with
  | none =>
      rw [init_none_eq] at h
      cases h1 : temperatureSet
          { system := s, temperature := T, cachedStandardSystemHash := none } T with
      | error e => rw [h1] at h; simp at h
      | ok st1 =>
          simp only [h1] at h
          cases h2 : checkSystemConsistency st1 st1.system with
          | error e => simp only [h2] at h; simp at h
          | ok u =>
              simp only [h2, Except.ok.injEq] at h
              subst h
              cases u
              exact h2
  | some p =>
      rw [init_some_eq] at h
      cases h1 : temperatureSet
          { system := s, temperature := T, cachedStandardSystemHash := none } T with
      | error e => rw [h1] at h; simp at h
      | ok st1 =>
          simp only [h1] at h
          cases h15 : pressureSet st1 (some p) with
          | error e => simp only [h15] at h; simp at h
          | ok st2 =>
              simp only [h15] at h
              cases h2 : checkSystemConsistency st2 st2.system with
              | error e => simp only [h2] at h; simp at h
              | ok u =>
                  simp only [h2, Except.ok.injEq] at h
                  subst h
                  cases u
                  exact h2

/-! ### Claim C2 -/

/-- C2: after every successful public operation — construction, and the
temperature, pressure and system setters (the latter three started from a
state already satisfying the invariant) — the resulting state satisfies
`StateConsistent`: at most one barostat, of the supported kind, with the
state's own temperature and pressure, and pressure `None` iff no barostat. -/
theorem C2_public_operations_preserve_invariant :
    (∀ s T P st, init s T P = Except.ok st → StateConsistent st) ∧
    (∀ st v st', StateConsistent st → temperatureSet st v = Except.ok st' →
       StateConsistent st') ∧
    (∀ st p st', StateConsistent st → pressureSet st p = Except.ok st' →
       StateConsistent st') ∧
    (∀ st s st', StateConsistent st → systemSet st s = Except.ok st' →
       StateConsistent st') := by
  refine ⟨?_, ?_, ?_, ?_⟩
  · intro s T P st h
    exact stateConsistent_of_check_ok st (init_ok_check s T P st h)
  · intro st v st' hst h
    obtain ⟨s0, T0, c0⟩ := st
    rw [temperatureSet_mk] at h
    cases hp : findBarostatPair s0 with
    | error e => rw [hp] at h; simp at h
    | ok o =>
        cases o with
        | none =>
            rw [hp] at h
            simp only [Except.ok.injEq] at h
            subst h
            exact stateConsistent_of_filter_nil _ ((findBarostatPair_none_iff _).mp hp)
        | some pr =>
            obtain ⟨j, b⟩ := pr
            rw [hp] at h
            simp only [Except.ok.injEq] at h
            subst h
            obtain ⟨hids, hget, hsup, hfil, -⟩ := findBarostatPair_some _ j b hp
            refine stateConsistent_of_filter_singleton _ { b with temperature := v }
              ?_ hsup rfl
            show (modifyForceList (fun f => { f with temperature := v })
                j s0.forces).filter forceIsBarostatLike = [{ b with temperature := v }]
            exact filter_modify_of_singleton s0.forces j
              (fun f => { f with temperature := v }) (fun f => rfl) b hids hget
  · intro st p st' hst h
    obtain ⟨s0, T0, c0⟩ := st
    cases p with
    | none =>
        rw [pressureSet_none_mk] at h
        cases hidx : findBarostatIndex s0 with
        | error e => rw [hidx] at h; simp at h
        | ok o =>
            cases o with
            | none =>
                rw [hidx] at h
                simp only [Except.ok.injEq] at h
                subst h
                exact hst
            | some j =>
                rw [hidx] at h
                simp only [Except.ok.injEq] at h
                subst h
                apply stateConsistent_of_filter_nil
                show (s0.forces.eraseIdx j).filter forceIsBarostatLike = []
                exact filter_eraseIdx_of_singleton s0.forces j
                  (findBarostatIndex_some_ids _ j hidx)
    | some pv =>
        rw [pressureSet_some_mk] at h
        cases hper : s0.usesPeriodicBoundaryConditions with
        | false => rw [hper] at h; simp at h
        | true =>
            rw [hper] at h
            simp only [Bool.not_true, Bool.false_eq_true, if_false] at h
            cases hp : findBarostatPair s0 with
            | error e => rw [hp] at h; simp at h
            | ok o =>
                cases o with
                | none =>
                    rw [hp] at h
                    simp only [Except.ok.injEq] at h
                    subst h
                    refine stateConsistent_of_filter_singleton _
                      (MonteCarloBarostat pv T0) ?_ rfl rfl
                    show (s0.forces ++ [MonteCarloBarostat pv T0]).filter
                      forceIsBarostatLike = [MonteCarloBarostat pv T0]
                    exact filter_append_barostat s0.forces _
                      ((findBarostatPair_none_iff _).mp hp)
                      (MonteCarloBarostat_isBarostatLike pv T0)
                | some pr =>
                    obtain ⟨j, b⟩ := pr
                    rw [hp] at h
                    simp only [Except.ok.injEq] at h
                    subst h
                    obtain ⟨hids, hget, hsup, hfil, -⟩ := findBarostatPair_some _ j b hp
                    have hmem : b ∈ s0.forces.filter forceIsBarostatLike := by
                      rw [hfil]
                      exact List.mem_singleton.mpr rfl
                    obtain ⟨-, htempb, -⟩ := hst.2.1 b hmem
                    refine stateConsistent_of_filter_singleton _ { b with pressure := pv }
                      ?_ hsup htempb
                    show (modifyForceList (fun f => { f with pressure := pv })
                        j s0.forces).filter forceIsBarostatLike = [{ b with pressure := pv }]
                    exact filter_modify_of_singleton s0.forces j
                      (fun f => { f with pressure := pv }) (fun f => rfl) b hids hget
  · intro st s st' hst h
    obtain ⟨s0, T0, c0⟩ := st
    rw [systemSet_mk] at h
    cases hc : checkSystemConsistency
        { system := s0, temperature := T0, cachedStandardSystemHash := c0 } s with
    | error e => rw [hc] at h; simp at h
    | ok u =>
        rw [hc] at h
        simp only [Except.ok.injEq] at h
        subst h
        rcases check_ok_inv _ s hc with hnil | ⟨b, hfil, hsup, htemp⟩
        · exact stateConsistent_of_filter_nil _ hnil
        · exact stateConsistent_of_filter_singleton _ b hfil hsup htemp

theorem C2_witness :
    ∃ st, init c2System 350 (some 2) = Except.ok st ∧ StateConsistent st := by
  refine ⟨{ system := c2System, temperature := 350, cachedStandardSystemHash := none },
    by decide, ?_⟩
  exact C2_public_operations_preserve_invariant.1 c2System 350 (some 2) _ (by decide)

/-! ### The standard-system hash cache -/

theorem standardSystemHash_of_cacheOk (st : ThermodynamicState) (hc : CacheOk st) :
    standardSystemHash st = getStandardSystemHash st.system := by
  unfold standardSystemHash
  cases h : st.cachedStandardSystemHash with
  | none => rfl
  | some hsh => exact (hc hsh h).symm

theorem getStandardSystemHash_spec (s : System)
    (h : (s.forces.filter forceIsBarostatLike).length ≤ 1) :
    getStandardSystemHash s = Except.ok
      { forces := s.forces.filter (fun f => !forceIsBarostatLike f),
        usesPeriodicBoundaryConditions := s.usesPeriodicBoundaryConditions } := by
  unfold getStandardSystemHash
  rw [getStandardSystem_spec s h]
  rfl

/-! ### Claim C6 -/

/-- C6: `is_state_compatible` is reflexive and symmetric on states with a
sound hash cache and at most one barostat, and it is insensitive to
temperature, pressure and the barostat force: two states whose systems
agree on the non-barostat forces and on periodicity are compatible both
ways, because compatibility is hash equality of the barostat-stripped
systems. -/
theorem C6_state_compatibility (a b : ThermodynamicState)
    (hca : CacheOk a) (hcb : CacheOk b)
    (hna : (a.system.forces.filter forceIsBarostatLike).length ≤ 1)
    (hnb : (b.system.forces.filter forceIsBarostatLike).length ≤ 1) :
    is_state_compatible a a = Except.ok true ∧
    is_state_compatible a b = is_state_compatible b a ∧
    ((a.system.forces.filter (fun f => !forceIsBarostatLike f) =
        b.system.forces.filter (fun f => !forceIsBarostatLike f) ∧
      a.system.usesPeriodicBoundaryConditions =
        b.system.usesPeriodicBoundaryConditions) →
      is_state_compatible a b = Except.ok true ∧
      is_state_compatible b a = Except.ok true) := by
  have ha := standardSystemHash_of_cacheOk a hca
  have hb := standardSystemHash_of_cacheOk b hcb
  have ha2 := getStandardSystemHash_spec a.system hna
  have hb2 := getStandardSystemHash_spec b.system hnb
  refine ⟨?_, ?_, ?_⟩
  · unfold is_state_compatible
    simp only [ha, ha2]
    simp
  · unfold is_state_compatible
    simp only [ha, hb, ha2, hb2]
    exact congrArg Except.ok (decide_eq_decide.mpr eq_comm)
  · intro hsame
    obtain ⟨hf, hp⟩ := hsame
    have hAB : System.mk (a.system.forces.filter (fun f => !forceIsBarostatLike f))
        a.system.usesPeriodicBoundaryConditions =
        System.mk (b.system.forces.filter (fun f => !forceIsBarostatLike f))
        b.system.usesPeriodicBoundaryConditions := by
      rw [hf, hp]
    constructor
    · unfold is_state_compatible
      simp only [ha, hb, ha2, hb2, hAB]
      simp
    · unfold is_state_compatible
      simp only [ha, hb, ha2, hb2, hAB]
      simp

theorem C6_witness :
    is_state_compatible c6A c6A = Except.ok true ∧
    is_state_compatible c6A c6B = is_state_compatible c6B c6A ∧
    is_state_compatible c6A c6B = Except.ok true ∧
    is_state_compatible c6B c6A = Except.ok true := by
  have hca : CacheOk c6A := fun hsh hh => by simp [c6A] at hh
  have hcb : CacheOk c6B := fun hsh hh => by
    injection hh with h2
    subst h2
    decide
  obtain ⟨h1, h2, h3⟩ := C6_state_compatibility c6A c6B hca hcb (by decide) (by decide)
  exact ⟨h1, h2, (h3 ⟨by decide, by decide⟩).1, (h3 ⟨by decide, by decide⟩).2⟩

/-! ### Claim C10 -/

theorem removeForce_pbc (s : System) (j : Nat) :
    (s.removeForce j).usesPeriodicBoundaryConditions =
      s.usesPeriodicBoundaryConditions := rfl

theorem getStandardSystemHash_modify_at (s : System) (j : Nat) (g : Force → Force)
    (hg : ∀ f, forceIsBarostatLike (g f) = forceIsBarostatLike f)
    (hids : barostatIdsFrom 0 s.forces = [j]) :
    getStandardSystemHash (s.modifyForce j g) = getStandardSystemHash s := by
  have hids2 : barostatIdsFrom 0 (s.modifyForce j g).forces = [j] := by
    rw [modifyForce_forces, modifyForceList_ids g hg s.forces j 0, hids]
  unfold getStandardSystemHash getStandardSystem
  rw [findBarostatIndex_spec, findBarostatIndex_spec, hids2, hids]
  have hsys : (s.modifyForce j g).removeForce j = s.removeForce j := by
    show (⟨(modifyForceList g j s.forces).eraseIdx j,
          s.usesPeriodicBoundaryConditions⟩ : System) =
         ⟨s.forces.eraseIdx j, s.usesPeriodicBoundaryConditions⟩
    rw [modifyForceList_eraseIdx_self]
  simp [hsys]

theorem getStandardSystemHash_remove (s : System) (j : Nat)
    (hids : barostatIdsFrom 0 s.forces = [j]) :
    getStandardSystemHash (s.removeForce j) = getStandardSystemHash s := by
  obtain ⟨b, -, -, hfil, herase⟩ := barostatIdsFrom_singleton s.forces j hids
  have hnil : (s.removeForce j).forces.filter forceIsBarostatLike = [] := by
    rw [removeForce_forces]
    exact filter_eraseIdx_of_singleton s.forces j hids
  have h1 : ((s.removeForce j).forces.filter forceIsBarostatLike).length ≤ 1 := by
    rw [hnil]
    simp
  have h2 : (s.forces.filter forceIsBarostatLike).length ≤ 1 := by
    rw [hfil]
    simp
  rw [getStandardSystemHash_spec _ h1, getStandardSystemHash_spec _ h2]
  simp only [removeForce_forces, removeForce_pbc, herase, filter_not_isB_idem]

theorem addForce_pbc (s : System) (f : Force) :
    (s.addForce f).usesPeriodicBoundaryConditions =
      s.usesPeriodicBoundaryConditions := rfl

theorem getStandardSystemHash_add (s : System) (x : Force)
    (hx : forceIsBarostatLike x = true)
    (hnil : s.forces.filter forceIsBarostatLike = []) :
    getStandardSystemHash (s.addForce x) = getStandardSystemHash s := by
  have hids0 : barostatIdsFrom 0 s.forces = [] := (barostatIdsFrom_nil_iff _).mpr hnil
  have hids : barostatIdsFrom 0 (s.addForce x).forces = [s.forces.length] := by
    rw [addForce_forces, barostatIdsFrom_append_single x s.forces 0, hids0, hx]
    simp
  unfold getStandardSystemHash getStandardSystem
  rw [findBarostatIndex_spec, findBarostatIndex_spec, hids, hids0]
  have hsys : (s.addForce x).removeForce s.forces.length = s := by
    show (⟨(s.forces ++ [x]).eraseIdx s.forces.length,
          s.usesPeriodicBoundaryConditions⟩ : System) = s
    rw [eraseIdx_append_length]
  simp [hsys]

/-- C10: the temperature and pressure setters leave the standard-system
hash unchanged — standardization strips the barostat before serializing, so
retargeting, adding, reconfiguring or removing the barostat does not change
it — and they do not invalidate the cache, which therefore remains sound. -/
theorem C10_setters_preserve_standard_hash (st st' : ThermodynamicState)
    (hcache : CacheOk st)
    (hop : (∃ v, temperatureSet st v = Except.ok st') ∨
           (∃ p, pressureSet st p = Except.ok st')) :
    st'.cachedStandardSystemHash = st.cachedStandardSystemHash ∧
    getStandardSystemHash st'.system = getStandardSystemHash st.system ∧
    CacheOk st' := by
  obtain ⟨s0, T0, c0⟩ := st
  have main : st'.cachedStandardSystemHash = c0 ∧
      getStandardSystemHash st'.system = getStandardSystemHash s0 := by
    rcases hop with ⟨v, h⟩ | ⟨p, h⟩
    · rw [temperatureSet_mk] at h
      cases hp : findBarostatPair s0 with
      | error e => rw [hp] at h; simp at h
      | ok o =>
          cases o with
          | none =>
              simp only [hp, Except.ok.injEq] at h
              subst h
              exact ⟨rfl, rfl⟩
          | some pr =>
              obtain ⟨j, b⟩ := pr
              simp only [hp, Except.ok.injEq] at h
              subst h
              obtain ⟨hids, -, -, -, -⟩ := findBarostatPair_some _ j b hp
              exact ⟨rfl, getStandardSystemHash_modify_at s0 j
                (fun f => { f with temperature := v }) (fun f => rfl) hids⟩
    · cases p with
      | none =>
          rw [pressureSet_none_mk] at h
          cases hidx : findBarostatIndex s0 with
          | error e => rw [hidx] at h; simp at h
          | ok o =>
              cases o with
              | none =>
                  simp only [hidx, Except.ok.injEq] at h
                  subst h
                  exact ⟨rfl, rfl⟩
              | some j =>
                  simp only [hidx, Except.ok.injEq] at h
                  subst h
                  exact ⟨rfl, getStandardSystemHash_remove s0 j
                    (findBarostatIndex_some_ids _ j hidx)⟩
      | some pv =>
          rw [pressureSet_some_mk] at h
          cases hper : s0.usesPeriodicBoundaryConditions with
          | false => rw [hper] at h; simp at h
          | true =>
              rw [hper] at h
              simp only [Bool.not_true, Bool.false_eq_true, if_false] at h
              cases hp : findBarostatPair s0 with
              | error e => rw [hp] at h; simp at h
              | ok o =>
                  cases o with
                  | none =>
                      simp only [hp, Except.ok.injEq] at h
                      subst h
                      exact ⟨rfl, getStandardSystemHash_add s0 _
                        (MonteCarloBarostat_isBarostatLike pv T0)
                        ((findBarostatPair_none_iff _).mp hp)⟩
                  | some pr =>
                      obtain ⟨j, b⟩ := pr
                      simp only [hp, Except.ok.injEq] at h
                      subst h
                      obtain ⟨hids, -, -, -, -⟩ := findBarostatPair_some _ j b hp
                      exact ⟨rfl, getStandardSystemHash_modify_at s0 j
                        (fun f => { f with pressure := pv }) (fun f => rfl) hids⟩
  refine ⟨main.1, main.2, ?_⟩
  intro hsh hh
  rw [main.2]
  rw [main.1] at hh
  exact hcache hsh hh

theorem C10_witness :
    c10After.cachedStandardSystemHash = c10State.cachedStandardSystemHash ∧
    getStandardSystemHash c10After.system = getStandardSystemHash c10State.system ∧
    CacheOk c10After :=
  C10_setters_preserve_standard_hash c10State c10After
    (fun hsh hh => by
      injection hh with h2
      subst h2
      decide)
    (Or.inl ⟨310, by decide⟩)

example : forceIsBarostatLike (MonteCarloBarostat 1 300) = true := by decide

example :
    forceIsBarostatLike
      { className := "NonbondedForce", pressure := 0, temperature := 0,
        nonbondedMethod := NonbondedMethod.PME, param := 0 } = false := by decide

example :
    findBarostat { forces := [MonteCarloBarostat 1 300],
                   usesPeriodicBoundaryConditions := true } =
      Except.ok (some (MonteCarloBarostat 1 300)) := by decide

example :
    findBarostat { forces := [MonteCarloBarostat 1 300, MonteCarloBarostat 1 300],
                   usesPeriodicBoundaryConditions := true } =
      Except.error (mkError ErrorCode.MULTIPLE_BAROSTATS []) := by decide

end Yank
